import Mathlib

/-!
Verification of the OOMIFY photo-editor core (edit history, session
persistence, edit orchestration), shallowly embedded from the TypeScript
sources: the `App` component (history state, event handlers,
autosave/restore) and `services/geminiService.ts` (`handleApiResponse`,
`dataURLtoFile`-style data-URL handling).

Modelling conventions:
* JavaScript numbers that hold array indices are modelled as `Int`
  (the history cursor starts at `-1`); array primitives (`slice`,
  indexing) get their JavaScript clamping semantics.
* A `File`'s bytes are represented by their base64 text; `atob` is
  modelled as a base64-alphabet validity check plus identity.
* External effects (the remote generation call, `Math.random`, canvas
  thumbnail encoding, `localStorage` write outcomes, the stored record)
  are inputs of the model, supplied by the environment.
-/

namespace Oomify

/-- `xs.slice(0, e)` for a JavaScript array: a negative end counts from the
end of the array, and the result is clamped to the array bounds. -/
def jsTakeTo (e : Int) (xs : List α) : List α :=
  xs.take (if e < 0 then ((xs.length : Int) + e).toNat else e.toNat)

/-- `xs.slice(-n)` for a JavaScript array (`n > 0`): the last `n` elements,
or the whole array when it has at most `n` elements. -/
def jsSliceLast (n : Nat) (xs : List α) : List α :=
  xs.drop (xs.length - n)

/-- `xs[i]` for a JavaScript array: `undefined` (here `none`) outside
`[0, xs.length)`. -/
def jsIndex (xs : List α) (i : Int) : Option α :=
  if h : 0 ≤ i ∧ i < (xs.length : Int) then
    some (xs.get ⟨i.toNat, by omega⟩)
  else none

/-- `s.trim()`, implemented over the character list. -/
def jsTrim (s : String) : String :=
  String.mk (((s.toList.dropWhile Char.isWhitespace).reverse.dropWhile
    Char.isWhitespace).reverse)

def jsSplitAux (sep : Char) : List Char → List Char → List String
  | [], acc => [String.mk acc.reverse]
  | c :: rest, acc =>
    if c = sep then String.mk acc.reverse :: jsSplitAux sep rest []
    else jsSplitAux sep rest (c :: acc)

/-- `s.split(sep)` for a one-character separator. -/
def jsSplit (s : String) (sep : Char) : List String :=
  jsSplitAux sep s.toList []

/-! ## The Edit History Store

The in-memory history model of `App`: the `history`/`historyIndex`
`useState` pair, mutated by `addImageToHistory`, `handleHistoryStepClick`,
`handleUndo`, `handleRedo` and `handleReset`.  The element type is a
parameter here; the orchestrator model below repeats these handlers on the
full application state. -/

structure HistState (α : Type _) where
  history : List α
  historyIndex : Int
deriving DecidableEq

/-- `addImageToHistory`: `history.slice(0, historyIndex + 1)`, push the new
image, and point the cursor at the new last element. -/
def addImageToHistory (s : HistState α) (newImageFile : α) : HistState α :=
  let newHistory := (jsTakeTo (s.historyIndex + 1) s.history).concat newImageFile
  { history := newHistory, historyIndex := (newHistory.length : Int) - 1 }

/-- `canUndo = historyIndex > 0`. -/
def canUndo (s : HistState α) : Prop := s.historyIndex > 0

/-- `canRedo = historyIndex < history.length - 1`. -/
def canRedo (s : HistState α) : Prop := s.historyIndex < (s.history.length : Int) - 1

instance (s : HistState α) : Decidable (canUndo s) := by unfold canUndo; infer_instance
instance (s : HistState α) : Decidable (canRedo s) := by unfold canRedo; infer_instance

/-- `handleHistoryStepClick`: set the cursor if the requested index is in
`[0, history.length)`, otherwise do nothing. -/
def handleHistoryStepClick (s : HistState α) (index : Int) : HistState α :=
  if 0 ≤ index ∧ index < (s.history.length : Int) then
    { s with historyIndex := index }
  else s

/-- `handleUndo`: step to `historyIndex - 1` when `canUndo`. -/
def handleUndo (s : HistState α) : HistState α :=
  if canUndo s then handleHistoryStepClick s (s.historyIndex - 1) else s

/-- `handleRedo`: step to `historyIndex + 1` when `canRedo`. -/
def handleRedo (s : HistState α) : HistState α :=
  if canRedo s then handleHistoryStepClick s (s.historyIndex + 1) else s

/-- `handleReset`: step to index `0` when the history is non-empty. -/
def handleReset (s : HistState α) : HistState α :=
  if 0 < s.history.length then handleHistoryStepClick s 0 else s

/-- A history operation of the store contract: a committed edit, an undo
click or a redo click. -/
inductive HistOp (α : Type _)
  | commit (img : α)
  | undo
  | redo
deriving DecidableEq

def applyHistOp (s : HistState α) : HistOp α → HistState α
  | .commit img => addImageToHistory s img
  | .undo => handleUndo s
  | .redo => handleRedo s

def applyHistOps (s : HistState α) (ops : List (HistOp α)) : HistState α :=
  ops.foldl applyHistOp s

/-- Loading an image (`handleImageUpload`), restricted to the history
fields: the sequence becomes `[file]` with cursor `0`. -/
def loadImage (f : α) : HistState α := { history := [f], historyIndex := 0 }

/-- The cursor-in-range invariant of the store. -/
def cursorInRange (s : HistState α) : Prop :=
  0 ≤ s.historyIndex ∧ s.historyIndex < (s.history.length : Int)

/-! ## Image files and data URLs

`dataURLtoFile` from `App`: split on `','`, extract the MIME type with
`/:(.*?);/` (first `':'`, then the shortest run up to a `';'`; an empty
capture is falsy and rejected), `atob` the payload. -/

structure File where
  name : String
  mime : String
  content : String
deriving DecidableEq

/-- The `/:(.*?);/` match on the data-URL header, yielding `mimeMatch[1]`:
the text between the first `':'` and the first `';'` after it.  `none`
both when there is no match and when the capture is empty
(`!mimeMatch || !mimeMatch[1]`) — the source throws the same error for
both. -/
def mimeOfHeader (h : String) : Option String :=
  let cs := h.toList
  match cs.dropWhile (fun c => c ≠ ':') with
  | [] => none
  | _ :: rest =>
    if rest.any (fun c => c = ';') then
      let cap := rest.takeWhile (fun c => c ≠ ';')
      if cap.isEmpty then none else some (String.mk cap)
    else none

/-- `atob` validity, abstracted as a base64-alphabet check. -/
def jsAtobOk (s : String) : Bool :=
  s.toList.all (fun c => c.isAlphanum || c == '+' || c == '/' || c == '=')

/-- The checks of `dataURLtoFile` up to producing (MIME type, payload);
each `.error` is the message of the corresponding `throw`
(`"InvalidCharacterError"` standing for the exception `atob` raises). -/
def parseDataURL (dataurl : String) : Except String (String × String) :=
  let arr := jsSplit dataurl ','
  if arr.length < 2 then .error "Invalid data URL"
  else
    match mimeOfHeader arr.headI with
    | none => .error "Could not parse MIME type from data URL"
    | some mime =>
      let payload := (arr.get? 1).getD ""
      if jsAtobOk payload then .ok (mime, payload)
      else .error "InvalidCharacterError"

/-- `dataURLtoFile(dataurl, filename)`: a `File` holding the decoded
payload, or the thrown error. -/
def dataURLtoFile (dataurl filename : String) : Except String File :=
  match parseDataURL dataurl with
  | .error e => .error e
  | .ok (mime, payload) => .ok ⟨filename, mime, payload⟩

/-! ## The generation collaborator boundary

`handleApiResponse` from `services/geminiService.ts`: classify a model
response as a data URL (success) or a thrown error (blocked / abnormal
stop / no image). -/

structure GenPart where
  inlineData : Option (String × String)
deriving DecidableEq

structure GenCandidate where
  parts : List GenPart
  finishReason : Option String
deriving DecidableEq

structure GenResponse where
  blockReason : Option String
  blockReasonMessage : Option String
  candidates : List GenCandidate
  text : Option String
deriving DecidableEq

/-- `x || ''` on an optional string. -/
def jsStrOrEmpty : Option String → String
  | some s => s
  | none => ""

/-- `response.candidates?.[0]?.content?.parts?.find(part => part.inlineData)`. -/
def firstInline (response : GenResponse) : Option (String × String) :=
  match response.candidates with
  | [] => none
  | c :: _ => (c.parts.find? (fun part => part.inlineData.isSome)).bind (·.inlineData)

/-- `response.candidates?.[0]?.finishReason`. -/
def firstFinishReason (response : GenResponse) : Option String :=
  match response.candidates with
  | [] => none
  | c :: _ => c.finishReason

/-- The final `throw` of `handleApiResponse`: no image part was found. -/
def noImageError (response : GenResponse) (context : String) : Except String String :=
  let textFeedback := jsTrim (jsStrOrEmpty response.text)
  .error ("The AI model did not return an image for the " ++ context ++ ". "
    ++ (if textFeedback ≠ "" then
          "The model responded with text: \"" ++ textFeedback ++ "\""
        else
          "This can happen due to safety filters or if the request is too complex. Please try rephrasing your prompt to be more direct."))

/-- `handleApiResponse` after the block-reason check. -/
def handleApiResponseNoBlock (response : GenResponse) (context : String) :
    Except String String :=
  match firstInline response with
  | some (mimeType, data) => .ok ("data:" ++ mimeType ++ ";base64," ++ data)
  | none =>
    match firstFinishReason response with
    | some finishReason =>
      if finishReason ≠ "" ∧ finishReason ≠ "STOP" then
        .error ("Image generation for " ++ context ++ " stopped unexpectedly. Reason: "
          ++ finishReason ++ ". This often relates to safety settings.")
      else noImageError response context
    | none => noImageError response context

/-- `handleApiResponse(response, context)`: `.ok` is the returned data URL,
`.error` the message of the thrown `Error`.  An empty `blockReason` is
falsy in `if (response.promptFeedback?.blockReason)` and skipped. -/
def handleApiResponse (response : GenResponse) (context : String) :
    Except String String :=
  match response.blockReason with
  | some blockReason =>
    if blockReason ≠ "" then
      .error ("Request was blocked. Reason: " ++ blockReason ++ ". "
        ++ jsStrOrEmpty response.blockReasonMessage)
    else handleApiResponseNoBlock response context
  | none => handleApiResponseNoBlock response context

/-! ## Session persistence: the saved record and `saveData`

`saveData` from `App`: keep the last `MAX_HISTORY_AUTOSAVE` entries,
remap the cursor, thumbnail each kept entry, write the record as a whole;
on a quota `DOMException`, remove the stored record; any other failure is
swallowed leaving storage as it was. -/

def MAX_HISTORY_AUTOSAVE : Nat := 5

/-- The persisted record (`stateToSave`); `JSON.stringify`/`JSON.parse`
round-tripping of this record is `jvalOfSavedState` below. -/
structure SavedState where
  history : List String
  historyIndex : Int
  prompt : String
  activeTab : String
deriving DecidableEq

/-- A thrown JavaScript error, as far as the `catch` block of `saveData`
inspects it: whether it is a `DOMException`, and its `name`. -/
structure JsError where
  isDOMException : Bool
  name : String
deriving DecidableEq

/-- The quota test of `saveData`'s `catch` block. -/
def isQuotaError (e : JsError) : Bool :=
  e.isDOMException
    && (e.name == "QuotaExceededError" || e.name == "NS_ERROR_DOM_QUOTA_REACHED")

/-- `Promise.all(historyToSave.map(file => createImageThumbnail(file)))`,
with the thumbnail encoder `thumbOf` supplied by the environment (it is
canvas code); the first rejection rejects the whole batch. -/
def createThumbs (thumbOf : File → Except JsError String) :
    List File → Except JsError (List String)
  | [] => .ok []
  | f :: rest =>
    match thumbOf f with
    | .error e => .error e
    | .ok u =>
      match createThumbs thumbOf rest with
      | .error e => .error e
      | .ok us => .ok (u :: us)

/-- `saveData`, as a function of the storage cell for the
`'oomify-autosave'` key (`store`), with the thumbnail encoder and the
outcome of `localStorage.setItem` supplied by the environment.  The
codomain is the new storage cell: every exception is caught inside, none
escapes. -/
def saveData (thumbOf : File → Except JsError String)
    (writeResult : Except JsError Unit)
    (history : List File) (historyIndex : Int) (prompt activeTab : String)
    (store : Option SavedState) : Option SavedState :=
  if 0 < history.length then
    let historyToSave := jsSliceLast MAX_HISTORY_AUTOSAVE history
    let truncatedCount : Int := (history.length : Int) - (historyToSave.length : Int)
    let historyIndexToSave := max 0 (historyIndex - truncatedCount)
    match createThumbs thumbOf historyToSave with
    | .error e => if isQuotaError e then none else store
    | .ok historyDataUrls =>
      match writeResult with
      | .error e => if isQuotaError e then none else store
      | .ok _ => some ⟨historyDataUrls, historyIndexToSave, prompt, activeTab⟩
  else none

/-! ## Session restore

The mount-time `useEffect` of `App`: read the stored record, parse it,
rebuild the history from the stored thumbnails.  The stored value is
modelled post-`JSON.parse`: `none` when the key is absent, `.error` when
`JSON.parse` throws, otherwise the parsed JSON value. -/

inductive JVal
  | jnull
  | jbool (b : Bool)
  | jnum (n : Int)
  | jstr (s : String)
  | jarr (elems : List JVal)
  | jobj (fields : List (String × JVal))

/-- JavaScript property access `v[k]` on a parsed JSON value: throws
(`.error`) on `null`, looks the key up on an object (`none` = `undefined`
when absent), and yields `undefined` on any other primitive or array. -/
def jsGet : JVal → String → Except Unit (Option JVal)
  | .jnull, _ => .error ()
  | .jobj fields, k => .ok ((fields.find? (fun kv => kv.1 == k)).map (·.2))
  | _, _ => .ok none

/-- One element of the stored `history` array:
`dataURLtoFile(dataUrl, saved-image-INDEX.png)`; calling `.split` on a
non-string element throws a `TypeError`. -/
def decodeElem (v : JVal) (index : Nat) : Except String File :=
  match v with
  | .jstr dataUrl => dataURLtoFile dataUrl ("saved-image-" ++ toString index ++ ".png")
  | _ => .error "TypeError"

/-- `savedState.history.map((dataUrl, index) => dataURLtoFile(...))`: the
first throw aborts the whole restore. -/
def decodeHistory : List JVal → Nat → Except String (List File)
  | [], _ => .ok []
  | v :: rest, index =>
    match decodeElem v index with
    | .error e => .error e
    | .ok f =>
      match decodeHistory rest (index + 1) with
      | .error e => .error e
      | .ok fs => .ok (f :: fs)

/-- `JSON.parse(JSON.stringify(stateToSave))`: the JSON value a record
written by `saveData` parses back to. -/
def jvalOfSavedState (ss : SavedState) : JVal :=
  .jobj [("history", .jarr (ss.history.map .jstr)),
         ("historyIndex", .jnum ss.historyIndex),
         ("prompt", .jstr ss.prompt),
         ("activeTab", .jstr ss.activeTab)]

/-- `savedState.historyIndex ?? -1`: the stored value installed as-is when
present and non-null.  A non-numeric value here is excluded by the record's
TypeScript type (`number`) and modelled as the default. -/
def jIndexOr (x : Except Unit (Option JVal)) (d : Int) : Int :=
  match x with
  | .ok (some (.jnum n)) => n
  | _ => d

/-- `savedState.prompt ?? ''` / `savedState.activeTab ?? 'retouch'`,
with the same TypeScript-type caveat as `jIndexOr`. -/
def jStrOr (x : Except Unit (Option JVal)) (d : String) : String :=
  match x with
  | .ok (some (.jstr s)) => s
  | _ => d

/-! ## The Edit Orchestrator state machine

The full `App` state relevant to the claims, with its event handlers.
An in-flight generation request is an element of `pending`; it carries the
`history`/`historyIndex` values captured by the submitting render's
closures, because `addImageToHistory` runs on those captured values when
the `await` returns.  User events fire only when the corresponding control
is rendered and enabled (`disabled={...}` in the JSX); each gate below
records that condition. -/

abbrev Hotspot := Int × Int

inductive ReqKind
  | retouch
  | filter
  | adjustment
  | tryOn
  | style
  | persona
deriving DecidableEq

structure PendingReq where
  kind : ReqKind
  capturedHistory : List File
  capturedIndex : Int
  configSeed : Option Int
deriving DecidableEq

structure AppState where
  history : List File
  historyIndex : Int
  prompt : String
  isLoading : Bool
  error : Option String
  editHotspot : Option Hotspot
  activeTab : String
  referenceImage : Option File
  isStyleLocked : Bool
  designSeed : Option Int
  completedCropW : Option Int
  pending : List PendingReq
deriving DecidableEq

/-- `currentImage = history[historyIndex] ?? null`. -/
def currentImage (s : AppState) : Option File := jsIndex s.history s.historyIndex

/-- The state right after mount: empty history, cursor `-1`; `isLoading`
starts `true` in the source but the mount effect sets it `false` before
any user event can fire, so the machine starts with it `false`. -/
def initState : AppState :=
  { history := [], historyIndex := -1, prompt := "", isLoading := false,
    error := none, editHotspot := none, activeTab := "retouch",
    referenceImage := none, isStyleLocked := false, designSeed := none,
    completedCropW := none, pending := [] }

/-- The mount-time restore `useEffect`, producing the post-mount state
from the stored record.  Every failure path falls into the `catch` (or the
skipped `if`) and leaves the cold-start state; no error is surfaced. -/
def restoreEffect (stored : Option (Except Unit JVal)) : AppState :=
  match stored with
  | none => initState
  | some (.error _) => initState
  | some (.ok savedState) =>
    match jsGet savedState "history" with
    | .error _ => initState
    | .ok none => initState
    | .ok (some hv) =>
      match hv with
      | .jarr elems =>
        match decodeHistory elems 0 with
        | .error _ => initState
        | .ok historyFiles =>
          { initState with
              history := historyFiles,
              historyIndex := jIndexOr (jsGet savedState "historyIndex") (-1),
              prompt := jStrOr (jsGet savedState "prompt") "",
              activeTab := jStrOr (jsGet savedState "activeTab") "retouch" }
      | _ => initState

namespace App

/-- `addImageToHistory`, as run by the closure that captured
`history`/`historyIndex` at the submitting render (`hist`, `idx`): the
current state's history fields are overwritten with values computed from
the captured ones; the crop selection is cleared. -/
def addImageToHistory (s : AppState) (hist : List File) (idx : Int) (f : File) :
    AppState :=
  let newHistory := (jsTakeTo (idx + 1) hist).concat f
  { s with history := newHistory,
           historyIndex := (newHistory.length : Int) - 1,
           completedCropW := none }

/-- `handleImageUpload`. -/
def handleImageUpload (s : AppState) (f : File) : AppState :=
  { s with error := none, history := [f], historyIndex := 0,
           editHotspot := none, activeTab := "retouch",
           completedCropW := none, referenceImage := none,
           isStyleLocked := false, designSeed := none }

/-- `handleUploadNew`. -/
def handleUploadNew (s : AppState) : AppState :=
  { s with history := [], historyIndex := -1, error := none, prompt := "",
           editHotspot := none, isStyleLocked := false, designSeed := none }

/-- `handleSetReferenceImage`: always clears the design seed. -/
def handleSetReferenceImage (s : AppState) (f : Option File) : AppState :=
  { s with referenceImage := f, designSeed := none }

/-- `handleHistoryStepClick` on the full state: also clears the hotspot
and the crop selection. -/
def handleHistoryStepClick (s : AppState) (index : Int) : AppState :=
  if 0 ≤ index ∧ index < (s.history.length : Int) then
    { s with historyIndex := index, editHotspot := none, completedCropW := none }
  else s

/-- `canUndo = historyIndex > 0`. -/
def canUndo (s : AppState) : Prop := s.historyIndex > 0

/-- `canRedo = historyIndex < history.length - 1`. -/
def canRedo (s : AppState) : Prop := s.historyIndex < (s.history.length : Int) - 1

instance (s : AppState) : Decidable (canUndo s) := by unfold canUndo; infer_instance
instance (s : AppState) : Decidable (canRedo s) := by unfold canRedo; infer_instance

/-- `handleUndo`. -/
def handleUndo (s : AppState) : AppState :=
  if canUndo s then handleHistoryStepClick s (s.historyIndex - 1) else s

/-- `handleRedo`. -/
def handleRedo (s : AppState) : AppState :=
  if canRedo s then handleHistoryStepClick s (s.historyIndex + 1) else s

/-- `handleReset`: jump to index `0`, then clear the error. -/
def handleReset (s : AppState) : AppState :=
  if 0 < s.history.length then
    { handleHistoryStepClick s 0 with error := none }
  else s

/-- Entering the Pending phase of an async handler: `setIsLoading(true)`,
`setError(null)`, and the external call starts, capturing the current
history fields. -/
def startRequest (s : AppState) (k : ReqKind) (seed : Option Int) : AppState :=
  { s with isLoading := true, error := none,
           pending := s.pending ++ [⟨k, s.history, s.historyIndex, seed⟩] }

/-- `handleGenerate` (retouch): precondition checks, then the call. -/
def handleGenerate (s : AppState) : AppState :=
  if (currentImage s).isNone then
    { s with error := some "No image loaded to edit." }
  else if jsTrim s.prompt = "" then
    { s with error := some "Please enter a description for your edit." }
  else if s.editHotspot.isNone then
    { s with error := some "Please click on the image to select an area to edit." }
  else startRequest s .retouch none

/-- `handleApplyFilter` (the filter prompt only feeds the remote call). -/
def handleApplyFilter (s : AppState) : AppState :=
  if (currentImage s).isNone then
    { s with error := some "No image loaded to apply a filter to." }
  else startRequest s .filter none

/-- `handleApplyAdjustment`. -/
def handleApplyAdjustment (s : AppState) : AppState :=
  if (currentImage s).isNone then
    { s with error := some "No image loaded to apply an adjustment to." }
  else startRequest s .adjustment none

/-- `handleApplyTryOn`. -/
def handleApplyTryOn (s : AppState) : AppState :=
  if (currentImage s).isNone then
    { s with error := some "No image loaded to edit." }
  else if s.editHotspot.isNone then
    { s with error := some "Please click on the clothing in the image to select an area to replace." }
  else startRequest s .tryOn none

/-- `if (seed) config.seed = seed` in `generateStyledImage`: a zero or
absent seed is omitted from the request configuration. -/
def cfgSeed (n : Int) : Option Int := if n ≠ 0 then some n else none

/-- `handleApplyStyle`: the style-lock seed logic.  `rand` is the value
`Math.floor(Math.random() * 1_000_000_000)` would draw if the handler
draws.  Note `if (designSeed)` is a truthiness test: a stored seed `0` is
treated as absent. -/
def handleApplyStyle (s : AppState) (rand : Int) : AppState :=
  if (currentImage s).isNone then
    { s with error := some "No target image loaded." }
  else if s.referenceImage.isNone then
    { s with error := some "Please upload a style reference image." }
  else if s.isStyleLocked then
    match s.designSeed with
    | some designSeed =>
      if designSeed ≠ 0 then startRequest s .style (cfgSeed designSeed)
      else startRequest { s with designSeed := some rand } .style (cfgSeed rand)
    | none => startRequest { s with designSeed := some rand } .style (cfgSeed rand)
  else startRequest { s with designSeed := none } .style none

/-- `handleGeneratePersona`. -/
def handleGeneratePersona (s : AppState) : AppState :=
  if (currentImage s).isNone then
    { s with error := some "No identity image loaded." }
  else startRequest s .persona none

/-- `handleApplyCrop`: synchronous; `cropped` is the canvas result,
`ctxOk` whether `canvas.getContext('2d')` succeeded.  (`imgRef.current`
is modelled as present: the crop UI gate requires a displayed image.) -/
def handleApplyCrop (s : AppState) (cropped : File) (ctxOk : Bool) : AppState :=
  if s.completedCropW.isNone then
    { s with error := some "Please select an area to crop." }
  else if !ctxOk then
    { s with error := some "Could not process the crop." }
  else addImageToHistory s s.history s.historyIndex cropped

/-- The error prefix of each handler's `catch` block. -/
def errPrefix : ReqKind → String
  | .retouch => "Failed to generate the image. "
  | .filter => "Failed to apply the filter. "
  | .adjustment => "Failed to apply the adjustment. "
  | .tryOn => "Failed to generate the image. "
  | .style => "Failed to apply the style. "
  | .persona => "Failed to generate the persona image. "

/-- The filename each handler passes to `dataURLtoFile` (the `Date.now()`
timestamp is omitted; filenames play no role in the claims). -/
def resultName : ReqKind → String
  | .retouch => "edited.png"
  | .filter => "filtered.png"
  | .adjustment => "adjusted.png"
  | .tryOn => "tryon.png"
  | .style => "styled.png"
  | .persona => "persona.png"

/-- The awaited generation call returns (`res`: the data URL, or the
thrown error's message).  Success decodes the data URL and commits it with
the captured history fields, then clears the retouch/try-on hotspot;
failure sets the handler's error; `finally` clears `isLoading`. -/
def completeRequest (s : AppState) (res : Except String String) : AppState :=
  match s.pending with
  | [] => s
  | req :: rest =>
    match res with
    | .error msg =>
      { s with pending := rest, isLoading := false,
               error := some (errPrefix req.kind ++ msg) }
    | .ok dataUrl =>
      match dataURLtoFile dataUrl (resultName req.kind) with
      | .error m =>
        { s with pending := rest, isLoading := false,
                 error := some (errPrefix req.kind ++ m) }
      | .ok f =>
        let s' := addImageToHistory { s with pending := rest, isLoading := false }
            req.capturedHistory req.capturedIndex f
        match req.kind with
        | .retouch => { s' with editHotspot := none }
        | .tryOn => { s' with editHotspot := none }
        | _ => s'

/-- The try-on panel's two submission modes. -/
inductive TryOnDetails
  | tprompt (p : String)
  | garment (g : File)
deriving DecidableEq

/-- The editor main view is rendered: no error box is shown and a current
image is displayed (`currentImageUrl` approximated by `currentImage`). -/
def editorShown (s : AppState) : Bool :=
  s.error.isNone && (currentImage s).isSome

/-- A given tab's panel is rendered. -/
def tabShown (s : AppState) (t : String) : Bool :=
  editorShown s && s.activeTab == t

/-- The `StartScreen` is rendered (no image, no error box, not loading). -/
def uploadGate (s : AppState) : Bool :=
  s.error.isNone && (currentImage s).isNone && !s.isLoading

/-- `isCropping`: `!!completedCrop?.width && completedCrop.width > 0`. -/
def isCropping (s : AppState) : Bool :=
  match s.completedCropW with
  | some w => decide (0 < w)
  | none => false

/-- The retouch Generate button / input:
`disabled={isLoading || !prompt.trim() || !editHotspot}`. -/
def retouchGate (s : AppState) : Bool :=
  tabShown s "retouch" && !s.isLoading && !(jsTrim s.prompt == "") && s.editHotspot.isSome

/-- Modelled from the spec: the `FilterPanel` component is not among the
sources; per the spec a new submission while a request is Pending must be
rejected, so its apply controls are disabled while `isLoading`, like every
panel whose source is present. -/
def filterGate (s : AppState) : Bool :=
  tabShown s "filters" && !s.isLoading

/-- `AdjustmentPanel`: every apply control has `disabled={isLoading}` (the
main button additionally requires a non-empty prompt; the color-preset
buttons do not, so only `isLoading` gates the panel as a whole). -/
def adjustGate (s : AppState) : Bool :=
  tabShown s "adjust" && !s.isLoading

/-- `TryOnPanel`: `canGenerate = isHotspotSelected && !isLoading && ((mode
=== 'text' && !!prompt.trim()) || (mode === 'image' && !!garmentFile))`. -/
def tryOnGate (s : AppState) (d : TryOnDetails) : Bool :=
  tabShown s "try-on" && s.editHotspot.isSome && !s.isLoading
    && (match d with
        | .tprompt p => !(jsTrim p == "")
        | .garment _ => true)

/-- `DesignPanel`: `canGenerate = !isLoading && referenceImage`. -/
def styleGate (s : AppState) : Bool :=
  tabShown s "design" && !s.isLoading && s.referenceImage.isSome

/-- `PersonaPanel`: `canGenerate = !isLoading && basePrompt.trim()`. -/
def personaGate (s : AppState) (basePrompt : String) : Bool :=
  tabShown s "persona" && !s.isLoading && !(jsTrim basePrompt == "")

/-- `CropPanel` apply button: `disabled={isLoading || !isCropping}`. -/
def cropGate (s : AppState) : Bool :=
  tabShown s "crop" && !s.isLoading && isCropping s

/-- A user or environment event. -/
inductive Ev
  | upload (f : File)
  | uploadNew
  | undoClick
  | redoClick
  | resetClick
  | stepClick (i : Int)
  | setTab (t : String)
  | setPromptText (p : String)
  | clickImage (h : Hotspot)
  | setReference (f : Option File)
  | setLocked (b : Bool)
  | setCrop (w : Option Int)
  | submitRetouch
  | submitFilter (filterPrompt : String)
  | submitAdjust (adjustmentPrompt : String)
  | submitTryOn (d : TryOnDetails)
  | submitStyle (stylePrompt : String) (rand : Int)
  | submitPersona (basePrompt : String)
  | submitCrop (cropped : File) (ctxOk : Bool)
  | complete (res : Except String String)

/-- One machine step: each event fires its handler when its UI gate holds,
and is otherwise impossible (the control is absent or disabled), leaving
the state unchanged. -/
def step (s : AppState) : Ev → AppState
  | .upload f => if uploadGate s then handleImageUpload s f else s
  | .uploadNew => handleUploadNew s
  | .undoClick => if editorShown s then handleUndo s else s
  | .redoClick => if editorShown s then handleRedo s else s
  | .resetClick => if editorShown s then handleReset s else s
  | .stepClick i => if editorShown s then handleHistoryStepClick s i else s
  | .setTab t => if editorShown s then { s with activeTab := t } else s
  | .setPromptText p => if retouchGate s then { s with prompt := p } else s
  | .clickImage h =>
    if (tabShown s "retouch" || tabShown s "try-on") && !s.isLoading then
      { s with editHotspot := some h }
    else s
  | .setReference f => if tabShown s "design" then handleSetReferenceImage s f else s
  | .setLocked b =>
    if tabShown s "design" && !s.isLoading then { s with isStyleLocked := b } else s
  | .setCrop w => if tabShown s "crop" then { s with completedCropW := w } else s
  | .submitRetouch => if retouchGate s then handleGenerate s else s
  | .submitFilter _ => if filterGate s then handleApplyFilter s else s
  | .submitAdjust _ => if adjustGate s then handleApplyAdjustment s else s
  | .submitTryOn d => if tryOnGate s d then handleApplyTryOn s else s
  | .submitStyle _ rand => if styleGate s then handleApplyStyle s rand else s
  | .submitPersona bp => if personaGate s bp then handleGeneratePersona s else s
  | .submitCrop cropped ctxOk => if cropGate s then handleApplyCrop s cropped ctxOk else s
  | .complete res => completeRequest s res

def applyEvs (s : AppState) (evs : List Ev) : AppState :=
  evs.foldl step s

/-- Is the event one of the edit-request submissions? -/
def isSubmit : Ev → Bool
  | .submitRetouch => true
  | .submitFilter _ => true
  | .submitAdjust _ => true
  | .submitTryOn _ => true
  | .submitStyle _ _ => true
  | .submitPersona _ => true
  | .submitCrop _ _ => true
  | _ => false

/-- A state reachable by the app: the mount-time restore of an arbitrary
stored record, then any sequence of events. -/
def Reachable (s : AppState) : Prop :=
  ∃ stored evs, s = applyEvs (restoreEffect stored) evs

/-- The in-flight bookkeeping invariant: `isLoading` exactly when a
request is pending, and never more than one. -/
def PendInv (s : AppState) : Prop :=
  (s.pending = [] ↔ s.isLoading = false) ∧ s.pending.length ≤ 1

/-- The most recent upload, tracked across one event: an accepted upload
replaces it (uploads are only accepted on the `StartScreen`: no image
loaded, nothing pending), every other event leaves it.  Because `Upload
New` empties the history and a new upload then starts a fresh sequence,
this is exactly the original upload that began the current lineage. -/
def ghostUpd (s : AppState) (u : Option File) : Ev → Option File
  | .upload f => if uploadGate s then some f else u
  | _ => u

/-- Run a trace while tracking the most recent (accepted) upload. -/
def runGhost : AppState → Option File → List Ev → AppState × Option File
  | s, u, [] => (s, u)
  | s, u, e :: evs => runGhost (step s e) (ghostUpd s u e) evs

/-- The files ever passed to an upload event of a trace. -/
def uploadsOf : List Ev → List File
  | [] => []
  | .upload f :: evs => f :: uploadsOf evs
  | _ :: evs => uploadsOf evs

/-- The head-of-history invariant: a non-empty history starts with the
tracked upload, and so does every captured history of an in-flight
request (whose captured cursor is in range). -/
def HeadInv (u : Option File) (s : AppState) : Prop :=
  (s.history ≠ [] → s.history.head? = u)
    ∧ (∀ req ∈ s.pending,
        req.capturedHistory ≠ [] ∧ req.capturedHistory.head? = u
          ∧ 0 ≤ req.capturedIndex ∧ req.capturedIndex < (req.capturedHistory.length : Int))

end App

end Oomify

/-! # Theorems -/

namespace Oomify

theorem jsTakeTo_nonneg (e : Int) (he : 0 ≤ e) (xs : List α) :
    jsTakeTo e xs = xs.take e.toNat := by
  simp [jsTakeTo, not_lt.mpr he]

theorem jsIndex_isSome_iff (xs : List α) (i : Int) :
    (jsIndex xs i).isSome ↔ 0 ≤ i ∧ i < (xs.length : Int) := by
  unfold jsIndex
  split
  · next h => simpa using h
  · next h => simpa using h

theorem jsSliceLast_length (n : Nat) (xs : List α) :
    (jsSliceLast n xs).length = min xs.length n := by
  simp [jsSliceLast]
  omega

theorem addImageToHistory_history (s : HistState α) (img : α)
    (h0 : 0 ≤ s.historyIndex) :
    (addImageToHistory s img).history
      = s.history.take (s.historyIndex.toNat + 1) ++ [img] := by
  unfold addImageToHistory
  rw [jsTakeTo_nonneg _ (by omega)]
  simp only [List.concat_eq_append]
  have h : (s.historyIndex + 1).toNat = s.historyIndex.toNat + 1 := by omega
  rw [h]

theorem cursorInRange_addImageToHistory (s : HistState α) (img : α) :
    cursorInRange (addImageToHistory s img) := by
  simp only [addImageToHistory, cursorInRange, List.length_concat]
  constructor <;> push_cast <;> omega

theorem cursorInRange_handleHistoryStepClick (s : HistState α) (i : Int)
    (h : cursorInRange s) : cursorInRange (handleHistoryStepClick s i) := by
  unfold handleHistoryStepClick
  split
  · next hi => exact hi
  · exact h

theorem cursorInRange_handleUndo (s : HistState α)
    (h : cursorInRange s) : cursorInRange (handleUndo s) := by
  unfold handleUndo
  split
  · exact cursorInRange_handleHistoryStepClick s _ h
  · exact h

theorem cursorInRange_handleRedo (s : HistState α)
    (h : cursorInRange s) : cursorInRange (handleRedo s) := by
  unfold handleRedo
  split
  · exact cursorInRange_handleHistoryStepClick s _ h
  · exact h

theorem cursorInRange_applyHistOp (s : HistState α) (op : HistOp α)
    (h : cursorInRange s) : cursorInRange (applyHistOp s op) := by
  cases op with
  | commit img => exact cursorInRange_addImageToHistory s img
  | undo => exact cursorInRange_handleUndo s h
  | redo => exact cursorInRange_handleRedo s h

theorem cursorInRange_applyHistOps (ops : List (HistOp α)) (s : HistState α)
    (h : cursorInRange s) : cursorInRange (applyHistOps s ops) := by
  induction ops generalizing s with
  | nil => exact h
  | cons op rest ih =>
    exact ih (applyHistOp s op) (cursorInRange_applyHistOp s op h)

/-! ### Claim C1 -/

/-- C1: for every history with a valid cursor `c`, committing a new image
truncates the entries to indices `[0, c]`, appends the new image, and sets
the cursor to the new last index; in particular, from history `[A, B, C]`
at cursor `2`, `undo` then `commit D` yields `[A, B, D]` at cursor `2`
(`C` is discarded). -/
theorem commit_truncates_appends_moves_cursor (s : HistState α) (img : α)
    (h0 : 0 ≤ s.historyIndex) (h1 : s.historyIndex < (s.history.length : Int)) :
    (addImageToHistory s img).history
        = s.history.take (s.historyIndex.toNat + 1) ++ [img]
      ∧ (addImageToHistory s img).historyIndex
        = ((addImageToHistory s img).history.length : Int) - 1
      ∧ ∀ (a b c d : α),
          applyHistOps ⟨[a, b, c], 2⟩ [.undo, .commit d]
            = (⟨[a, b, d], 2⟩ : HistState α) := by
  refine ⟨addImageToHistory_history s img h0, rfl, ?_⟩
  intro a b c d
  rfl

/-- Witness for C1 at history `[10, 11, 12]`, cursor `2`, new image `9`. -/
theorem commit_truncates_appends_moves_cursor_witness :
    (addImageToHistory (⟨[10, 11, 12], 2⟩ : HistState Nat) 9).history
        = [10, 11, 12].take ((2 : Int).toNat + 1) ++ [9] :=
  (commit_truncates_appends_moves_cursor (⟨[10, 11, 12], 2⟩ : HistState Nat) 9
    (by decide) (by decide)).1

/-! ### Claim C2 -/

/-- C2: starting from a loaded image, every sequence of commits interleaved
with undo and redo clicks keeps the cursor in `[0, entries.length)`
(entries are never empty along such sequences); moreover `handleUndo` is a
silent no-op at cursor `0`, and `handleRedo` is a no-op at the last
entry. -/
theorem history_ops_cursor_in_range (f : α) (ops : List (HistOp α)) :
    ((applyHistOps (loadImage f) ops).history ≠ [] →
        0 ≤ (applyHistOps (loadImage f) ops).historyIndex
          ∧ (applyHistOps (loadImage f) ops).historyIndex
              < ((applyHistOps (loadImage f) ops).history.length : Int))
      ∧ (∀ t : HistState α, t.historyIndex = 0 → handleUndo t = t)
      ∧ (∀ t : HistState α,
          t.historyIndex = (t.history.length : Int) - 1 → handleRedo t = t) := by
  refine ⟨fun _ => ?_, fun t ht => ?_, fun t ht => ?_⟩
  · exact cursorInRange_applyHistOps ops (loadImage f) (by simp [loadImage, cursorInRange])
  · simp [handleUndo, canUndo, ht]
  · simp [handleRedo, canRedo, ht]

/-- Witness for C2: a commit, two undos (the second at cursor `0`) and a
redo from a loaded image, with the cursor bounds evaluated. -/
theorem history_ops_cursor_in_range_witness :
    0 ≤ (applyHistOps (loadImage (5 : Nat)) [.commit 6, .undo, .undo, .redo]).historyIndex
      ∧ (applyHistOps (loadImage (5 : Nat)) [.commit 6, .undo, .undo, .redo]).historyIndex
          < ((applyHistOps (loadImage (5 : Nat))
              [.commit 6, .undo, .undo, .redo]).history.length : Int) :=
  (history_ops_cursor_in_range (5 : Nat) [.commit 6, .undo, .undo, .redo]).1
    (by decide)

/-! ### Claim C3 -/

theorem createThumbs_ok_length (thumbOf : File → Except JsError String)
    (fs : List File) (urls : List String)
    (h : createThumbs thumbOf fs = .ok urls) : urls.length = fs.length := by
  induction fs generalizing urls with
  | nil =>
    simp only [createThumbs] at h
    cases h
    rfl
  | cons f rest ih =>
    simp only [createThumbs] at h
    cases hf : thumbOf f with
    | error e => rw [hf] at h; cases h
    | ok u =>
      rw [hf] at h
      cases hr : createThumbs thumbOf rest with
      | error e => rw [hr] at h; cases h
      | ok us =>
        rw [hr] at h
        cases h
        simp [ih us hr]

theorem decodeHistory_map_jstr (urls : List String)
    (h : ∀ u ∈ urls, (parseDataURL u).isOk = true) :
    ∀ i, ∃ fs, decodeHistory (urls.map .jstr) i = .ok fs
      ∧ fs.length = urls.length := by
  induction urls with
  | nil => intro i; exact ⟨[], rfl, rfl⟩
  | cons u rest ih =>
    intro i
    have hu : (parseDataURL u).isOk = true := h u (by simp)
    obtain ⟨m, pl, hmp⟩ : ∃ m pl, parseDataURL u = .ok (m, pl) := by
      cases hp : parseDataURL u with
      | error e => rw [hp] at hu; cases hu
      | ok mp =>
        obtain ⟨m, pl⟩ := mp
        exact ⟨m, pl, rfl⟩

    obtain ⟨fs, hfs, hlen⟩ := ih (fun v hv => h v (by simp [hv])) (i + 1)
    refine ⟨⟨"saved-image-" ++ toString i ++ ".png", m, pl⟩ :: fs, ?_, by simp [hlen]⟩
    simp only [List.map_cons, decodeHistory, decodeElem, dataURLtoFile, hmp, hfs]

theorem saveData_ok (thumbOf : File → Except JsError String)
    (history : List File) (c : Int) (p t : String) (store : Option SavedState)
    (urls : List String) (hlen : 0 < history.length)
    (hth : createThumbs thumbOf (jsSliceLast MAX_HISTORY_AUTOSAVE history) = .ok urls) :
    saveData thumbOf (.ok ()) history c p t store
      = some ⟨urls, max 0 (c - max 0 ((history.length : Int) - 5)), p, t⟩ := by
  have harith : (history.length : Int)
      - ((jsSliceLast MAX_HISTORY_AUTOSAVE history).length : Int)
      = max 0 ((history.length : Int) - 5) := by
    rw [jsSliceLast_length]
    have h5 : MAX_HISTORY_AUTOSAVE = 5 := rfl
    rw [h5]
    push_cast
    omega
  simp only [saveData, hth, if_pos hlen, harith]

theorem restoreEffect_of_saved (ss : SavedState) (fs : List File)
    (hdec : decodeHistory (ss.history.map .jstr) 0 = .ok fs) :
    restoreEffect (some (.ok (jvalOfSavedState ss)))
      = { initState with history := fs, historyIndex := ss.historyIndex,
                         prompt := ss.prompt, activeTab := ss.activeTab } := by
  have hget : jsGet (jvalOfSavedState ss) "history"
      = .ok (some (.jarr (ss.history.map .jstr))) := rfl
  simp only [restoreEffect, hget, hdec]
  rfl

/-- C3: with `K = MAX_HISTORY_AUTOSAVE = 5`, saving a history of 7 entries
produces a persisted snapshot of exactly 5 thumbnails whose saved cursor is
`max 0 (c - 2)`; restoring that snapshot yields a history of exactly 5
entries with that cursor; and in general the saved cursor is
`max 0 (c - truncatedCount)` with `truncatedCount = max 0 (length - 5)`. -/
theorem autosave_roundtrip (thumbOf : File → Except JsError String)
    (history : List File) (c : Int) (p t : String) (store : Option SavedState)
    (urls : List String)
    (h7 : history.length = 7)
    (hth : createThumbs thumbOf (jsSliceLast MAX_HISTORY_AUTOSAVE history) = .ok urls)
    (hparse : ∀ u ∈ urls, (parseDataURL u).isOk = true) :
    saveData thumbOf (.ok ()) history c p t store
        = some ⟨urls, max 0 (c - 2), p, t⟩
      ∧ urls.length = 5
      ∧ (restoreEffect (some (.ok (jvalOfSavedState
            (⟨urls, max 0 (c - 2), p, t⟩ : SavedState))))).history.length = 5
      ∧ (restoreEffect (some (.ok (jvalOfSavedState
            (⟨urls, max 0 (c - 2), p, t⟩ : SavedState))))).historyIndex
          = max 0 (c - 2)
      ∧ ∀ (history' : List File) (c' : Int) (urls' : List String),
          0 < history'.length →
          createThumbs thumbOf (jsSliceLast MAX_HISTORY_AUTOSAVE history') = .ok urls' →
          saveData thumbOf (.ok ()) history' c' p t store
            = some ⟨urls', max 0 (c' - max 0 ((history'.length : Int) - 5)), p, t⟩ := by
  have hu5 : urls.length = 5 := by
    have := createThumbs_ok_length thumbOf _ _ hth
    rw [jsSliceLast_length, h7] at this
    simpa using this
  obtain ⟨fs, hfs, hfslen⟩ := decodeHistory_map_jstr urls hparse 0
  have hrest := restoreEffect_of_saved ⟨urls, max 0 (c - 2), p, t⟩ fs hfs
  refine ⟨?_, hu5, ?_, ?_, ?_⟩
  · have := saveData_ok thumbOf history c p t store urls (by omega) hth
    rw [h7] at this
    norm_num at this
    exact this
  · rw [hrest]
    simp [hfslen, hu5]
  · rw [hrest]
  · intro history' c' urls' hlen' hth'
    exact saveData_ok thumbOf history' c' p t store urls' hlen' hth'

/-- Witness for C3: a concrete 7-entry history at cursor 6, a concrete
thumbnail encoder, and valid base64 thumbnails. -/
theorem autosave_roundtrip_witness :
    saveData (fun f => .ok ("data:image/jpeg;base64," ++ f.content)) (.ok ())
        [⟨"a.png", "image/png", "AA"⟩, ⟨"b.png", "image/png", "BB"⟩,
         ⟨"c.png", "image/png", "CC"⟩, ⟨"d.png", "image/png", "DD"⟩,
         ⟨"e.png", "image/png", "EE"⟩, ⟨"f.png", "image/png", "FF"⟩,
         ⟨"g.png", "image/png", "GG"⟩] 6 "pr" "retouch" none
      = some ⟨["data:image/jpeg;base64,CC", "data:image/jpeg;base64,DD",
               "data:image/jpeg;base64,EE", "data:image/jpeg;base64,FF",
               "data:image/jpeg;base64,GG"], max 0 (6 - 2), "pr", "retouch"⟩ :=
  (autosave_roundtrip (fun f => .ok ("data:image/jpeg;base64," ++ f.content))
    [⟨"a.png", "image/png", "AA"⟩, ⟨"b.png", "image/png", "BB"⟩,
     ⟨"c.png", "image/png", "CC"⟩, ⟨"d.png", "image/png", "DD"⟩,
     ⟨"e.png", "image/png", "EE"⟩, ⟨"f.png", "image/png", "FF"⟩,
     ⟨"g.png", "image/png", "GG"⟩] 6 "pr" "retouch" none
    ["data:image/jpeg;base64,CC", "data:image/jpeg;base64,DD",
     "data:image/jpeg;base64,EE", "data:image/jpeg;base64,FF",
     "data:image/jpeg;base64,GG"]
    (by rfl) (by rfl) (by decide)).1

/-! ### Claim C8 -/

/-- C8: if the `localStorage` write during autosave throws a
quota-exceeded `DOMException`, the persisted snapshot key is removed
entirely (the storage cell becomes `none`, never a partial record).  That
no exception escapes the save path is embedded in `saveData`'s type: it
totally returns a storage cell, every thrown error being consumed by its
`catch` branches. -/
theorem quota_exceeded_removes_snapshot (thumbOf : File → Except JsError String)
    (history : List File) (c : Int) (p t : String) (store : Option SavedState)
    (urls : List String) (e : JsError)
    (hlen : 0 < history.length)
    (hth : createThumbs thumbOf (jsSliceLast MAX_HISTORY_AUTOSAVE history) = .ok urls)
    (hdom : e.isDOMException = true)
    (hname : e.name = "QuotaExceededError" ∨ e.name = "NS_ERROR_DOM_QUOTA_REACHED") :
    saveData thumbOf (.error e) history c p t store = none := by
  have hq : isQuotaError e = true := by
    cases hname with
    | inl h => simp [isQuotaError, hdom, h]
    | inr h => simp [isQuotaError, hdom, h]
  simp only [saveData, hth, if_pos hlen, hq, if_pos]

/-- Witness for C8: one entry, a concrete thumbnail encoder, and a
quota-exceeded write failure. -/
theorem quota_exceeded_removes_snapshot_witness :
    saveData (fun f => .ok ("data:image/jpeg;base64," ++ f.content))
        (.error ⟨true, "QuotaExceededError"⟩)
        [⟨"a.png", "image/png", "AA"⟩] 0 "p" "retouch"
        (some ⟨["data:image/jpeg;base64,ZZ"], 0, "q", "crop"⟩) = none :=
  quota_exceeded_removes_snapshot (fun f => .ok ("data:image/jpeg;base64," ++ f.content))
    [⟨"a.png", "image/png", "AA"⟩] 0 "p" "retouch"
    (some ⟨["data:image/jpeg;base64,ZZ"], 0, "q", "crop"⟩)
    ["data:image/jpeg;base64,AA"] ⟨true, "QuotaExceededError"⟩
    (by decide) (by rfl) (by rfl) (Or.inl rfl)

/-! ### Claim C9 -/

/-- C9: startup restore of an absent, unparseable, or malformed persisted
record — the key is missing, `JSON.parse` throws, reading `.history`
throws (`null` record), the `history` field is missing or not an array, or
some stored thumbnail fails to decode — yields the cold-start state: empty
history and no user-facing error.  Totality of `restoreEffect` embeds that
nothing escapes the `try`/`catch`. -/
theorem restore_malformed_cold_start (stored : Option (Except Unit JVal))
    (h : stored = none
      ∨ (∃ e, stored = some (.error e))
      ∨ ∃ v, stored = some (.ok v)
          ∧ (jsGet v "history" = .error ()
            ∨ jsGet v "history" = .ok none
            ∨ (∃ hv, jsGet v "history" = .ok (some hv) ∧ ∀ elems, hv ≠ .jarr elems)
            ∨ ∃ elems msg, jsGet v "history" = .ok (some (.jarr elems))
                ∧ decodeHistory elems 0 = .error msg)) :
    restoreEffect stored = initState
      ∧ (restoreEffect stored).history = []
      ∧ (restoreEffect stored).error = none := by
  have hmain : restoreEffect stored = initState := by
    rcases h with rfl | ⟨e, rfl⟩ | ⟨v, rfl, hv⟩
    · rfl
    · rfl
    · rcases hv with hg | hg | ⟨hv, hg, hnarr⟩ | ⟨elems, msg, hg, hdec⟩
      · simp [restoreEffect, hg]
      · simp [restoreEffect, hg]
      · simp only [restoreEffect, hg]
      · simp [restoreEffect, hg, hdec]
  exact ⟨hmain, by simp [hmain, initState], by simp [hmain, initState]⟩

/-- Witness for C9: a record whose `JSON.parse` throws. -/
theorem restore_malformed_cold_start_witness :
    restoreEffect (some (.error ())) = initState :=
  (restore_malformed_cold_start (some (.error ()))
    (Or.inr (Or.inl ⟨(), rfl⟩))).1

/-! ### Claim C10 -/

/-- C10: restore installs the record's `historyIndex` as-is (defaulting to
`-1` when it is absent or `null`) without validating it against the
restored history's length; the well-formed record
`{history: [one thumbnail], historyIndex: 5}` restores to a one-entry
history with cursor `5`, which is outside `[0, 1)`, and the current image
resolves to empty. -/
theorem restore_installs_cursor_unvalidated (v : JVal) (elems : List JVal)
    (fs : List File) (n : Int)
    (hh : jsGet v "history" = .ok (some (.jarr elems)))
    (hdec : decodeHistory elems 0 = .ok fs)
    (hidx : jsGet v "historyIndex" = .ok (some (.jnum n))) :
    (restoreEffect (some (.ok v))).history = fs
      ∧ (restoreEffect (some (.ok v))).historyIndex = n
      ∧ (∀ (w : JVal) (elems' : List JVal) (fs' : List File),
          jsGet w "history" = .ok (some (.jarr elems')) →
          decodeHistory elems' 0 = .ok fs' →
          (jsGet w "historyIndex" = .ok none
            ∨ jsGet w "historyIndex" = .ok (some .jnull)) →
          (restoreEffect (some (.ok w))).historyIndex = -1)
      ∧ ((restoreEffect (some (.ok (.jobj
            [("history", .jarr [.jstr "data:image/jpeg;base64,QUJD"]),
             ("historyIndex", .jnum 5)])))).history.length = 1
        ∧ (restoreEffect (some (.ok (.jobj
            [("history", .jarr [.jstr "data:image/jpeg;base64,QUJD"]),
             ("historyIndex", .jnum 5)])))).historyIndex = 5
        ∧ ¬((5 : Int) < ((1 : Nat) : Int))
        ∧ currentImage (restoreEffect (some (.ok (.jobj
            [("history", .jarr [.jstr "data:image/jpeg;base64,QUJD"]),
             ("historyIndex", .jnum 5)])))) = none) := by
  refine ⟨?_, ?_, ?_, by decide, by decide, by decide, by decide⟩
  · simp [restoreEffect, hh, hdec]
  · simp [restoreEffect, hh, hdec, jIndexOr, hidx]
  · intro w elems' fs' hh' hdec' hidx'
    cases hidx' with
    | inl h => simp [restoreEffect, hh', hdec', jIndexOr, h]
    | inr h => simp [restoreEffect, hh', hdec', jIndexOr, h]

/-- Witness for C10 at the record `{history: [thumbnail], historyIndex: 5}`. -/
theorem restore_installs_cursor_unvalidated_witness :
    (restoreEffect (some (.ok (.jobj
        [("history", .jarr [.jstr "data:image/jpeg;base64,QUJD"]),
         ("historyIndex", .jnum 5)])))).historyIndex = 5 :=
  (restore_installs_cursor_unvalidated
    (.jobj [("history", .jarr [.jstr "data:image/jpeg;base64,QUJD"]),
            ("historyIndex", .jnum 5)])
    [.jstr "data:image/jpeg;base64,QUJD"]
    [⟨"saved-image-0.png", "image/jpeg", "QUJD"⟩] 5
    (by rfl) (by rfl) (by rfl)).2.1

/-! ### The orchestrator machine: the in-flight invariant -/

namespace App

theorem pendInv_congr {s s' : AppState} (h : PendInv s)
    (hp : s'.pending = s.pending) (hl : s'.isLoading = s.isLoading) :
    PendInv s' := by
  unfold PendInv at h ⊢
  rw [hp, hl]
  exact h

theorem pendInv_startRequest (s : AppState) (k : ReqKind) (seed : Option Int)
    (h : PendInv s) (hload : s.isLoading = false) :
    PendInv (startRequest s k seed) := by
  obtain ⟨h1, _⟩ := h
  have hpe : s.pending = [] := h1.mpr hload
  simp [startRequest, PendInv, hpe]

theorem retouchGate_not_loading {s : AppState} (hg : retouchGate s = true) :
    s.isLoading = false := by
  simp [retouchGate, tabShown, editorShown] at hg
  tauto

theorem filterGate_not_loading {s : AppState} (hg : filterGate s = true) :
    s.isLoading = false := by
  simp [filterGate, tabShown, editorShown] at hg
  tauto

theorem adjustGate_not_loading {s : AppState} (hg : adjustGate s = true) :
    s.isLoading = false := by
  simp [adjustGate, tabShown, editorShown] at hg
  tauto

theorem tryOnGate_not_loading {s : AppState} {d : TryOnDetails}
    (hg : tryOnGate s d = true) : s.isLoading = false := by
  simp [tryOnGate, tabShown, editorShown] at hg
  tauto

theorem styleGate_not_loading {s : AppState} (hg : styleGate s = true) :
    s.isLoading = false := by
  simp [styleGate, tabShown, editorShown] at hg
  tauto

theorem personaGate_not_loading {s : AppState} {bp : String}
    (hg : personaGate s bp = true) : s.isLoading = false := by
  simp [personaGate, tabShown, editorShown] at hg
  tauto

theorem cropGate_not_loading {s : AppState} (hg : cropGate s = true) :
    s.isLoading = false := by
  simp [cropGate, tabShown, editorShown] at hg
  tauto

theorem pendInv_completeRequest (s : AppState) (res : Except String String)
    (h : PendInv s) : PendInv (completeRequest s res) := by
  obtain ⟨h1, h2⟩ := h
  unfold completeRequest
  cases hp : s.pending with
  | nil => exact ⟨h1, by rw [hp]; simp⟩
  | cons req rest =>
    have hrest : rest = [] := by
      rw [hp] at h2
      simpa using h2
    subst hrest
    cases res with
    | error msg => simp [PendInv]
    | ok dataUrl =>
      simp only [PendInv]
      repeat' split
      all_goals simp [addImageToHistory]

theorem pendInv_step (s : AppState) (e : Ev) (h : PendInv s) :
    PendInv (step s e) := by
  cases e with
  | upload f =>
    simp only [step]
    split
    · exact pendInv_congr h rfl rfl
    · exact h
  | uploadNew => exact pendInv_congr h rfl rfl
  | undoClick =>
    simp only [step, handleUndo, handleHistoryStepClick]
    repeat' split
    all_goals first | exact h | exact pendInv_congr h rfl rfl
  | redoClick =>
    simp only [step, handleRedo, handleHistoryStepClick]
    repeat' split
    all_goals first | exact h | exact pendInv_congr h rfl rfl
  | resetClick =>
    simp only [step, handleReset, handleHistoryStepClick]
    repeat' split
    all_goals first | exact h | exact pendInv_congr h rfl rfl
  | stepClick i =>
    simp only [step, handleHistoryStepClick]
    repeat' split
    all_goals first | exact h | exact pendInv_congr h rfl rfl
  | setTab t =>
    simp only [step]
    split
    · exact pendInv_congr h rfl rfl
    · exact h
  | setPromptText p =>
    simp only [step]
    split
    · exact pendInv_congr h rfl rfl
    · exact h
  | clickImage hs =>
    simp only [step]
    split
    · exact pendInv_congr h rfl rfl
    · exact h
  | setReference f =>
    simp only [step, handleSetReferenceImage]
    split
    · exact pendInv_congr h rfl rfl
    · exact h
  | setLocked b =>
    simp only [step]
    split
    · exact pendInv_congr h rfl rfl
    · exact h
  | setCrop w =>
    simp only [step]
    split
    · exact pendInv_congr h rfl rfl
    · exact h
  | submitRetouch =>
    simp only [step]
    split
    · next hg =>
      have hload := retouchGate_not_loading hg
      unfold handleGenerate
      repeat' split
      all_goals
        first
          | exact pendInv_congr h rfl rfl
          | exact pendInv_startRequest s _ _ h hload
    · exact h
  | submitFilter fp =>
    simp only [step]
    split
    · next hg =>
      have hload := filterGate_not_loading hg
      unfold handleApplyFilter
      split
      · exact pendInv_congr h rfl rfl
      · exact pendInv_startRequest s _ _ h hload
    · exact h
  | submitAdjust ap =>
    simp only [step]
    split
    · next hg =>
      have hload := adjustGate_not_loading hg
      unfold handleApplyAdjustment
      split
      · exact pendInv_congr h rfl rfl
      · exact pendInv_startRequest s _ _ h hload
    · exact h
  | submitTryOn d =>
    simp only [step]
    split
    · next hg =>
      have hload := tryOnGate_not_loading hg
      unfold handleApplyTryOn
      repeat' split
      all_goals
        first
          | exact pendInv_congr h rfl rfl
          | exact pendInv_startRequest s _ _ h hload
    · exact h
  | submitStyle sp rand =>
    simp only [step]
    split
    · next hg =>
      have hload := styleGate_not_loading hg
      unfold handleApplyStyle
      repeat' split
      all_goals
        first
          | exact pendInv_congr h rfl rfl
          | exact pendInv_startRequest s _ _ h hload
          | exact pendInv_startRequest { s with designSeed := some rand } _ _
              (pendInv_congr h rfl rfl) hload
          | exact pendInv_startRequest { s with designSeed := none } _ _
              (pendInv_congr h rfl rfl) hload
    · exact h
  | submitPersona bp =>
    simp only [step]
    split
    · next hg =>
      have hload := personaGate_not_loading hg
      unfold handleGeneratePersona
      split
      · exact pendInv_congr h rfl rfl
      · exact pendInv_startRequest s _ _ h hload
    · exact h
  | submitCrop cropped ctxOk =>
    simp only [step]
    split
    · next hg =>
      unfold handleApplyCrop
      repeat' split
      all_goals first | exact pendInv_congr h rfl rfl
    · exact h
  | complete res => exact pendInv_completeRequest s res h

theorem pendInv_applyEvs (evs : List Ev) (s : AppState) (h : PendInv s) :
    PendInv (applyEvs s evs) := by
  induction evs generalizing s with
  | nil => exact h
  | cons e rest ih => exact ih (step s e) (pendInv_step s e h)

theorem pendInv_initState : PendInv initState := by
  constructor <;> simp [initState, PendInv]

theorem restoreEffect_pending (stored : Option (Except Unit JVal)) :
    (restoreEffect stored).pending = [] ∧ (restoreEffect stored).isLoading = false := by
  unfold restoreEffect
  repeat' split
  all_goals exact ⟨rfl, rfl⟩

theorem pendInv_restoreEffect (stored : Option (Except Unit JVal)) :
    PendInv (restoreEffect stored) := by
  obtain ⟨hp, hl⟩ := restoreEffect_pending stored
  exact ⟨by rw [hp, hl]; simp, by rw [hp]; simp⟩

theorem pendInv_reachable (s : AppState) (h : Reachable s) : PendInv s := by
  obtain ⟨stored, evs, rfl⟩ := h
  exact pendInv_applyEvs evs _ (pendInv_restoreEffect stored)

theorem submit_noop_of_pending (s : AppState) (e : Ev) (hinv : PendInv s)
    (hpend : s.pending ≠ []) (hsub : isSubmit e = true) : step s e = s := by
  have hload : s.isLoading = true := by
    obtain ⟨h1, _⟩ := hinv
    cases hl : s.isLoading with
    | false => exact absurd (h1.mpr hl) hpend
    | true => rfl
  cases e
  case submitRetouch => simp [step, retouchGate, hload]
  case submitFilter => simp [step, filterGate, hload]
  case submitAdjust => simp [step, adjustGate, hload]
  case submitTryOn => simp [step, tryOnGate, hload]
  case submitStyle => simp [step, styleGate, hload]
  case submitPersona => simp [step, personaGate, hload]
  case submitCrop => simp [step, cropGate, hload]
  all_goals simp [isSubmit] at hsub

theorem completeRequest_ok_commits (s : AppState) (req : PendingReq)
    (dataUrl : String) (f : File) (hp : s.pending = [req])
    (hurl : dataURLtoFile dataUrl (resultName req.kind) = .ok f) :
    (completeRequest s (.ok dataUrl)).history
        = (jsTakeTo (req.capturedIndex + 1) req.capturedHistory).concat f
      ∧ (completeRequest s (.ok dataUrl)).historyIndex
        = (((jsTakeTo (req.capturedIndex + 1) req.capturedHistory).concat f).length : Int) - 1
      ∧ (completeRequest s (.ok dataUrl)).pending = []
      ∧ (completeRequest s (.ok dataUrl)).isLoading = false := by
  unfold completeRequest
  rw [hp]
  simp only
  rw [hurl]
  cases req.kind <;> simp [addImageToHistory]

/-! ### Claim C4 -/

/-- C4: in every reachable state at most one edit request is in flight;
while one is Pending, submitting a second edit request of any kind is a
complete no-op (the submission controls are disabled, so no second
external call starts and no state changes); and the Pending request's
eventual success still commits its result correctly: the history becomes
the submission-time history truncated at the submission-time cursor plus
the decoded result, the cursor moves to the new last index, and the
machine returns to Idle. -/
theorem single_inflight_request (s : AppState) (hreach : Reachable s) :
    s.pending.length ≤ 1
      ∧ (∀ e, isSubmit e = true → s.pending ≠ [] → step s e = s)
      ∧ (∀ req dataUrl f, s.pending = [req] →
          dataURLtoFile dataUrl (resultName req.kind) = .ok f →
          (step s (.complete (.ok dataUrl))).history
              = (jsTakeTo (req.capturedIndex + 1) req.capturedHistory).concat f
            ∧ (step s (.complete (.ok dataUrl))).historyIndex
              = (((jsTakeTo (req.capturedIndex + 1)
                    req.capturedHistory).concat f).length : Int) - 1
            ∧ (step s (.complete (.ok dataUrl))).pending = []
            ∧ (step s (.complete (.ok dataUrl))).isLoading = false) := by
  have hinv := pendInv_reachable s hreach
  refine ⟨hinv.2, ?_, ?_⟩
  · intro e hsub hpend
    exact submit_noop_of_pending s e hinv hpend hsub
  · intro req dataUrl f hp hurl
    exact completeRequest_ok_commits s req dataUrl f hp hurl

/-- Witness for C4: a reachable state with a filter request Pending; a
second (adjustment) submission is a no-op. -/
theorem single_inflight_request_witness :
    step (applyEvs (restoreEffect none)
        [.upload ⟨"photo.png", "image/png", "AA"⟩, .setTab "filters",
         .submitFilter "x"]) (.submitAdjust "y")
      = applyEvs (restoreEffect none)
        [.upload ⟨"photo.png", "image/png", "AA"⟩, .setTab "filters",
         .submitFilter "x"] :=
  (single_inflight_request
      (applyEvs (restoreEffect none)
        [.upload ⟨"photo.png", "image/png", "AA"⟩, .setTab "filters",
         .submitFilter "x"])
      ⟨none, _, rfl⟩).2.1 (.submitAdjust "y") rfl (by decide)

/-! ### Claim C6 -/

/-- C6: when the in-flight generation call fails — the thrown message
`msg` being, at the collaborator boundary, the blocked / abnormal-stop /
no-image error produced by `handleApiResponse` — the completion leaves the
history entries and cursor exactly unchanged, surfaces the handler's
failure-specific message (`errPrefix` of the request kind prefixed to
`msg`), and returns to Idle (`isLoading = false`, nothing pending). -/
theorem failure_leaves_history_returns_idle (s : AppState) (req : PendingReq)
    (msg : String) (hp : s.pending = [req]) :
    ((step s (.complete (.error msg))).history = s.history
        ∧ (step s (.complete (.error msg))).historyIndex = s.historyIndex
        ∧ (step s (.complete (.error msg))).error
            = some (errPrefix req.kind ++ msg)
        ∧ (step s (.complete (.error msg))).isLoading = false
        ∧ (step s (.complete (.error msg))).pending = [])
      ∧ (∀ (resp : GenResponse) (ctx br : String),
          resp.blockReason = some br → br ≠ "" →
          handleApiResponse resp ctx
            = .error ("Request was blocked. Reason: " ++ br ++ ". "
                ++ jsStrOrEmpty resp.blockReasonMessage))
      ∧ (∀ (resp : GenResponse) (ctx fr : String),
          resp.blockReason = none → firstInline resp = none →
          firstFinishReason resp = some fr → fr ≠ "" → fr ≠ "STOP" →
          handleApiResponse resp ctx
            = .error ("Image generation for " ++ ctx
                ++ " stopped unexpectedly. Reason: " ++ fr
                ++ ". This often relates to safety settings."))
      ∧ (∀ (resp : GenResponse) (ctx : String),
          resp.blockReason = none → firstInline resp = none →
          (firstFinishReason resp = none ∨ firstFinishReason resp = some "STOP") →
          handleApiResponse resp ctx = noImageError resp ctx
            ∧ ∃ m, noImageError resp ctx = .error m) := by
  refine ⟨?_, ?_, ?_, ?_⟩
  · unfold step completeRequest
    rw [hp]
    simp
  · intro resp ctx br hbr hne
    simp [handleApiResponse, hbr, hne]
  · intro resp ctx fr hbr hfi hfr hne1 hne2
    simp [handleApiResponse, handleApiResponseNoBlock, hbr, hfi, hfr, hne1, hne2]
  · intro resp ctx hbr hfi hfr
    constructor
    · cases hfr with
      | inl h => simp [handleApiResponse, handleApiResponseNoBlock, hbr, hfi, h]
      | inr h => simp [handleApiResponse, handleApiResponseNoBlock, hbr, hfi, h]
    · exact ⟨_, rfl⟩

/-- Witness for C6: failing the Pending filter request surfaces the
filter-specific message and leaves the single history entry in place. -/
theorem failure_leaves_history_returns_idle_witness :
    (step (applyEvs (restoreEffect none)
        [.upload ⟨"photo.png", "image/png", "AA"⟩, .setTab "filters",
         .submitFilter "x"])
        (.complete (.error "Request was blocked. Reason: SAFETY. "))).error
      = some ("Failed to apply the filter. "
          ++ "Request was blocked. Reason: SAFETY. ") :=
  (failure_leaves_history_returns_idle
      (applyEvs (restoreEffect none)
        [.upload ⟨"photo.png", "image/png", "AA"⟩, .setTab "filters",
         .submitFilter "x"])
      ⟨.filter, [⟨"photo.png", "image/png", "AA"⟩], 0, none⟩
      "Request was blocked. Reason: SAFETY. " (by decide)).1.2.2.1

/-! ### Claim C5 -/

/-- C5 (code behavior at the failing input): with style lock engaged, a
reference image set and no stored seed, a first locked style request that
draws the seed `0` stores it but sends no seed to the generation call
(`if (seed)` drops `0`); a second locked request with the same, unchanged
reference image then treats the stored `0` as absent (`if (designSeed)` is
a falsy test), draws afresh (here `7`) and sends that — the two locked
requests do not use an identical seed, contrary to the claim. -/
theorem styleLock_zero_seed_not_reused :
    (App.handleApplyStyle
        { initState with history := [⟨"t.png", "image/png", "TT"⟩],
                         historyIndex := 0, activeTab := "design",
                         referenceImage := some ⟨"r.png", "image/png", "RR"⟩,
                         isStyleLocked := true } 0).designSeed = some 0
      ∧ ((App.handleApplyStyle
        { initState with history := [⟨"t.png", "image/png", "TT"⟩],
                         historyIndex := 0, activeTab := "design",
                         referenceImage := some ⟨"r.png", "image/png", "RR"⟩,
                         isStyleLocked := true } 0).pending.map
          (fun r => r.configSeed)) = [none]
      ∧ (App.completeRequest (App.handleApplyStyle
            { initState with history := [⟨"t.png", "image/png", "TT"⟩],
                             historyIndex := 0, activeTab := "design",
                             referenceImage := some ⟨"r.png", "image/png", "RR"⟩,
                             isStyleLocked := true } 0)
          (.ok "data:image/png;base64,SS")).referenceImage
          = some ⟨"r.png", "image/png", "RR"⟩
      ∧ (App.completeRequest (App.handleApplyStyle
            { initState with history := [⟨"t.png", "image/png", "TT"⟩],
                             historyIndex := 0, activeTab := "design",
                             referenceImage := some ⟨"r.png", "image/png", "RR"⟩,
                             isStyleLocked := true } 0)
          (.ok "data:image/png;base64,SS")).isStyleLocked = true
      ∧ ((App.handleApplyStyle (App.completeRequest (App.handleApplyStyle
            { initState with history := [⟨"t.png", "image/png", "TT"⟩],
                             historyIndex := 0, activeTab := "design",
                             referenceImage := some ⟨"r.png", "image/png", "RR"⟩,
                             isStyleLocked := true } 0)
          (.ok "data:image/png;base64,SS")) 7).pending.map
          (fun r => r.configSeed)) = [some 7] := by
  decide

/-! ### The head-of-history invariant (for claim C7) -/

theorem head_jsTakeTo_concat (xs : List File) (i : Int) (f : File)
    (h0 : 0 ≤ i) (hne : xs ≠ []) :
    ((jsTakeTo (i + 1) xs).concat f).head? = xs.head? := by
  rw [jsTakeTo_nonneg _ (by omega)]
  have ht : (i + 1).toNat = i.toNat + 1 := by omega
  rw [ht]
  cases xs with
  | nil => exact absurd rfl hne
  | cons a l => simp

theorem headInv_congr {u : Option File} {s s' : AppState} (hh : HeadInv u s)
    (hhist : s'.history = s.history) (hpend : s'.pending = s.pending) :
    HeadInv u s' := by
  unfold HeadInv at hh ⊢
  rw [hhist, hpend]
  exact hh

theorem currentImage_bounds {s : AppState} (h : (currentImage s).isNone = false) :
    0 ≤ s.historyIndex ∧ s.historyIndex < (s.history.length : Int)
      ∧ s.history ≠ [] := by
  have hs : (currentImage s).isSome = true := by
    cases hc : currentImage s with
    | none => rw [hc] at h; simp at h
    | some f => simp
  rw [currentImage, jsIndex_isSome_iff] at hs
  refine ⟨hs.1, hs.2, fun hnil => ?_⟩
  rw [hnil] at hs
  simp at hs
  omega

theorem editorShown_current {s : AppState} (h : editorShown s = true) :
    (currentImage s).isNone = false := by
  simp only [editorShown, Bool.and_eq_true] at h
  cases hc : currentImage s with
  | none => rw [hc] at h; simp at h
  | some f => rfl

theorem headInv_startRequest (s : AppState) (k : ReqKind) (seed : Option Int)
    (u : Option File) (hh : HeadInv u s)
    (hcur : (currentImage s).isNone = false) :
    HeadInv u (startRequest s k seed) := by
  obtain ⟨h0, h1, hne⟩ := currentImage_bounds hcur
  obtain ⟨hhead, hpend⟩ := hh
  constructor
  · intro _
    exact hhead hne
  · intro req hreq
    simp only [startRequest, List.mem_append, List.mem_singleton] at hreq
    cases hreq with
    | inl h => exact hpend req h
    | inr h =>
      subst h
      exact ⟨hne, hhead hne, h0, h1⟩

theorem headInv_addImage (s : AppState) (hist : List File) (idx : Int)
    (f : File) (u : Option File)
    (hne : hist ≠ []) (hhead : hist.head? = u) (h0 : 0 ≤ idx)
    (hpend : ∀ req ∈ s.pending,
      req.capturedHistory ≠ [] ∧ req.capturedHistory.head? = u
        ∧ 0 ≤ req.capturedIndex
        ∧ req.capturedIndex < (req.capturedHistory.length : Int)) :
    HeadInv u (addImageToHistory s hist idx f) := by
  constructor
  · intro _
    show ((jsTakeTo (idx + 1) hist).concat f).head? = u
    rw [head_jsTakeTo_concat hist idx f h0 hne, hhead]
  · intro r hr
    exact hpend r hr

theorem headInv_completeRequest (s : AppState) (res : Except String String)
    (u : Option File) (hh : HeadInv u s) :
    HeadInv u (completeRequest s res) := by
  obtain ⟨hist, idx, pr, ld, er, hsp, tab, ref, lk, ds, cw, pnd⟩ := s
  obtain ⟨hhead, hpend⟩ := hh
  cases pnd with
  | nil => exact ⟨hhead, hpend⟩
  | cons req rest =>
    obtain ⟨hcne, hchead, hc0, hc1⟩ := hpend req (by simp)
    have hrest : ∀ r ∈ rest, r.capturedHistory ≠ [] ∧ r.capturedHistory.head? = u
        ∧ 0 ≤ r.capturedIndex ∧ r.capturedIndex < (r.capturedHistory.length : Int) :=
      fun r hr => hpend r (by simp [hr])
    cases res with
    | error msg => exact ⟨hhead, hrest⟩
    | ok dataUrl =>
      show HeadInv u (match dataURLtoFile dataUrl (resultName req.kind) with
        | .error m =>
          { history := hist, historyIndex := idx, prompt := pr, isLoading := false,
            error := some (errPrefix req.kind ++ m), editHotspot := hsp,
            activeTab := tab, referenceImage := ref, isStyleLocked := lk,
            designSeed := ds, completedCropW := cw, pending := rest }
        | .ok f =>
          let s' := addImageToHistory
            { history := hist, historyIndex := idx, prompt := pr,
              isLoading := false, error := er, editHotspot := hsp,
              activeTab := tab, referenceImage := ref, isStyleLocked := lk,
              designSeed := ds, completedCropW := cw, pending := rest }
            req.capturedHistory req.capturedIndex f
          match req.kind with
          | .retouch => { s' with editHotspot := none }
          | .tryOn => { s' with editHotspot := none }
          | _ => s')
      cases hurl : dataURLtoFile dataUrl (resultName req.kind) with
      | error m => exact ⟨hhead, hrest⟩
      | ok f =>
        have hcore : HeadInv u (addImageToHistory
            { history := hist, historyIndex := idx, prompt := pr,
              isLoading := false, error := er, editHotspot := hsp,
              activeTab := tab, referenceImage := ref, isStyleLocked := lk,
              designSeed := ds, completedCropW := cw, pending := rest }
            req.capturedHistory req.capturedIndex f) :=
          headInv_addImage _ req.capturedHistory req.capturedIndex f u
            hcne hchead hc0 hrest
        cases req.kind with
        | retouch => exact headInv_congr hcore rfl rfl
        | tryOn => exact headInv_congr hcore rfl rfl
        | filter => exact headInv_congr hcore rfl rfl
        | adjustment => exact headInv_congr hcore rfl rfl
        | style => exact headInv_congr hcore rfl rfl
        | persona => exact headInv_congr hcore rfl rfl

theorem headInv_step (s : AppState) (u : Option File) (e : Ev)
    (hh : HeadInv u s) (hp : PendInv s) :
    HeadInv (ghostUpd s u e) (step s e) := by
  cases e with
  | upload f =>
    simp only [step, ghostUpd]
    by_cases hg : uploadGate s = true
    · rw [if_pos hg, if_pos hg]
      have hload : s.isLoading = false := by
        simp [uploadGate] at hg
        tauto
      have hpe : s.pending = [] := hp.1.mpr hload
      constructor
      · intro _
        rfl
      · intro r hr
        rw [show (handleImageUpload s f).pending = s.pending from rfl, hpe] at hr
        cases hr
    · rw [if_neg hg, if_neg hg]
      exact hh
  | uploadNew =>
    simp only [step, ghostUpd]
    obtain ⟨hhead, hpend⟩ := hh
    constructor
    · intro h
      exact absurd rfl h
    · intro r hr
      exact hpend r hr
  | undoClick =>
    simp only [step, ghostUpd, handleUndo, handleHistoryStepClick]
    repeat' split
    all_goals first | exact hh | exact headInv_congr hh rfl rfl
  | redoClick =>
    simp only [step, ghostUpd, handleRedo, handleHistoryStepClick]
    repeat' split
    all_goals first | exact hh | exact headInv_congr hh rfl rfl
  | resetClick =>
    simp only [step, ghostUpd, handleReset, handleHistoryStepClick]
    repeat' split
    all_goals first | exact hh | exact headInv_congr hh rfl rfl
  | stepClick i =>
    simp only [step, ghostUpd, handleHistoryStepClick]
    repeat' split
    all_goals first | exact hh | exact headInv_congr hh rfl rfl
  | setTab t =>
    simp only [step, ghostUpd]
    split
    · exact headInv_congr hh rfl rfl
    · exact hh
  | setPromptText p =>
    simp only [step, ghostUpd]
    split
    · exact headInv_congr hh rfl rfl
    · exact hh
  | clickImage hpt =>
    simp only [step, ghostUpd]
    split
    · exact headInv_congr hh rfl rfl
    · exact hh
  | setReference f =>
    simp only [step, ghostUpd, handleSetReferenceImage]
    split
    · exact headInv_congr hh rfl rfl
    · exact hh
  | setLocked b =>
    simp only [step, ghostUpd]
    split
    · exact headInv_congr hh rfl rfl
    · exact hh
  | setCrop w =>
    simp only [step, ghostUpd]
    split
    · exact headInv_congr hh rfl rfl
    · exact hh
  | submitRetouch =>
    simp only [step, ghostUpd]
    split
    · unfold handleGenerate
      by_cases hc : (currentImage s).isNone = true
      · rw [if_pos hc]
        exact headInv_congr hh rfl rfl
      · have hc' : (currentImage s).isNone = false := by
          cases h2 : (currentImage s).isNone
          · rfl
          · exact absurd h2 hc
        rw [if_neg hc]
        split
        · exact headInv_congr hh rfl rfl
        · split
          · exact headInv_congr hh rfl rfl
          · exact headInv_startRequest s _ _ u hh hc'
    · exact hh
  | submitFilter fp =>
    simp only [step, ghostUpd]
    split
    · unfold handleApplyFilter
      by_cases hc : (currentImage s).isNone = true
      · rw [if_pos hc]
        exact headInv_congr hh rfl rfl
      · have hc' : (currentImage s).isNone = false := by
          cases h2 : (currentImage s).isNone
          · rfl
          · exact absurd h2 hc
        rw [if_neg hc]
        exact headInv_startRequest s _ _ u hh hc'
    · exact hh
  | submitAdjust ap =>
    simp only [step, ghostUpd]
    split
    · unfold handleApplyAdjustment
      by_cases hc : (currentImage s).isNone = true
      · rw [if_pos hc]
        exact headInv_congr hh rfl rfl
      · have hc' : (currentImage s).isNone = false := by
          cases h2 : (currentImage s).isNone
          · rfl
          · exact absurd h2 hc
        rw [if_neg hc]
        exact headInv_startRequest s _ _ u hh hc'
    · exact hh
  | submitTryOn d =>
    simp only [step, ghostUpd]
    split
    · unfold handleApplyTryOn
      by_cases hc : (currentImage s).isNone = true
      · rw [if_pos hc]
        exact headInv_congr hh rfl rfl
      · have hc' : (currentImage s).isNone = false := by
          cases h2 : (currentImage s).isNone
          · rfl
          · exact absurd h2 hc
        rw [if_neg hc]
        split
        · exact headInv_congr hh rfl rfl
        · exact headInv_startRequest s _ _ u hh hc'
    · exact hh
  | submitStyle sp rand =>
    simp only [step, ghostUpd]
    split
    · unfold handleApplyStyle
      by_cases hc : (currentImage s).isNone = true
      · rw [if_pos hc]
        exact headInv_congr hh rfl rfl
      · have hc' : (currentImage s).isNone = false := by
          cases h2 : (currentImage s).isNone
          · rfl
          · exact absurd h2 hc
        rw [if_neg hc]
        split
        · exact headInv_congr hh rfl rfl
        · split
          · split
            · split
              · exact headInv_startRequest s _ _ u hh hc'
              · exact headInv_startRequest { s with designSeed := some rand } _ _ u
                  (headInv_congr hh rfl rfl) hc'
            · exact headInv_startRequest { s with designSeed := some rand } _ _ u
                (headInv_congr hh rfl rfl) hc'
          · exact headInv_startRequest { s with designSeed := none } _ _ u
              (headInv_congr hh rfl rfl) hc'
    · exact hh
  | submitPersona bp =>
    simp only [step, ghostUpd]
    split
    · unfold handleGeneratePersona
      by_cases hc : (currentImage s).isNone = true
      · rw [if_pos hc]
        exact headInv_congr hh rfl rfl
      · have hc' : (currentImage s).isNone = false := by
          cases h2 : (currentImage s).isNone
          · rfl
          · exact absurd h2 hc
        rw [if_neg hc]
        exact headInv_startRequest s _ _ u hh hc'
    · exact hh
  | submitCrop cropped ctxOk =>
    simp only [step, ghostUpd]
    split
    · next hg =>
      have hshown : editorShown s = true := by
        simp only [cropGate, tabShown, Bool.and_eq_true] at hg
        exact hg.1.1.1
      obtain ⟨h0, h1, hne⟩ := currentImage_bounds (editorShown_current hshown)
      unfold handleApplyCrop
      split
      · exact headInv_congr hh rfl rfl
      · split
        · exact headInv_congr hh rfl rfl
        · exact headInv_addImage s s.history s.historyIndex cropped u hne
            (hh.1 hne) h0 hh.2
    · exact hh
  | complete res => exact headInv_completeRequest s res u hh

theorem headInv_runGhost (evs : List Ev) : ∀ (s : AppState) (u : Option File),
    HeadInv u s → PendInv s →
    HeadInv (runGhost s u evs).2 (runGhost s u evs).1 := by
  induction evs with
  | nil =>
    intro s u hh _
    exact hh
  | cons e rest ih =>
    intro s u hh hp
    exact ih (step s e) (ghostUpd s u e) (headInv_step s u e hh hp)
      (pendInv_step s e hp)

/-! ### Claim C7 -/

/-- C7 (amended): along every event trace from a cold start (no session
restore), a non-empty history's `entries[0]` is exactly the original
uploaded image of the current lineage: the most recent accepted upload,
tracked by `runGhost` (uploads are only accepted in an idle, image-free
state, so this upload began the sequence — in particular, a request
completing after a mid-flight `Upload New` click resurrects its captured
history, whose `entries[0]` is still that upload).  The history-control
operations (undo, redo, reset, jump) never change the entry list at all.
Session restore itself runs only at startup, into the empty mount state —
but, as the counterexample shows, the history it installs need not start
with the original upload. -/
theorem head_entry_is_latest_upload (evs : List Ev) :
    ((runGhost initState none evs).1.history ≠ [] →
        (runGhost initState none evs).1.history.head?
          = (runGhost initState none evs).2)
      ∧ (∀ (s : AppState) (i : Int),
          (step s .undoClick).history = s.history
            ∧ (step s .redoClick).history = s.history
            ∧ (step s .resetClick).history = s.history
            ∧ (step s (.stepClick i)).history = s.history)
      ∧ (∀ s : AppState, uploadGate s = true →
          (currentImage s).isNone = true ∧ s.isLoading = false) := by
  refine ⟨?_, ?_, ?_⟩
  · have hinit : HeadInv none initState := by
      constructor
      · intro h
        exact absurd rfl h
      · intro r hr
        cases hr
    exact (headInv_runGhost evs initState none hinit pendInv_initState).1
  · intro s i
    refine ⟨?_, ?_, ?_, ?_⟩ <;>
      · simp only [step, handleUndo, handleRedo, handleReset, handleHistoryStepClick]
        repeat' split
        all_goals rfl
  · intro s hg
    simp only [uploadGate, Bool.and_eq_true, Bool.not_eq_true'] at hg
    exact ⟨hg.1.2, hg.2⟩

/-- Witness for C7 (amended) on a concrete trace exercising the
resurrection path: upload, submit a filter, click `Upload New` while the
request is in flight, then let it complete; the head of the resurrected
history is still the uploaded file. -/
theorem head_entry_is_latest_upload_witness :
    (runGhost initState none
        [.upload ⟨"photo.png", "image/png", "AA"⟩, .setTab "filters",
         .submitFilter "p", .uploadNew,
         .complete (.ok "data:image/png;base64,BB")]).1.history.head?
      = (runGhost initState none
        [.upload ⟨"photo.png", "image/png", "AA"⟩, .setTab "filters",
         .submitFilter "p", .uploadNew,
         .complete (.ok "data:image/png;base64,BB")]).2 :=
  (head_entry_is_latest_upload
    [.upload ⟨"photo.png", "image/png", "AA"⟩, .setTab "filters",
     .submitFilter "p", .uploadNew,
     .complete (.ok "data:image/png;base64,BB")]).1 (by decide)

/-- C7 counterexample: a 7-entry session whose only upload is
`photo.png`/`AA` autosaves (5-thumbnail window, JPEG-encoded); restoring
that very record at the next startup is a reachable state
(`restoreEffect` of the saved record, with no further events) whose
history is non-empty yet whose `entries[0]` is a decoded thumbnail of the
third entry — not equal to the uploaded image (nor to any upload of the
trace), refuting the claim that `entries[0]` is always the original,
unedited upload. -/
theorem restored_head_not_original_upload :
    uploadsOf
        [.upload ⟨"photo.png", "image/png", "AA"⟩, .setTab "filters",
         .submitFilter "p", .complete (.ok "data:image/png;base64,BB"),
         .submitFilter "p", .complete (.ok "data:image/png;base64,CC"),
         .submitFilter "p", .complete (.ok "data:image/png;base64,DD"),
         .submitFilter "p", .complete (.ok "data:image/png;base64,EE"),
         .submitFilter "p", .complete (.ok "data:image/png;base64,FF"),
         .submitFilter "p", .complete (.ok "data:image/png;base64,GG")]
        = [⟨"photo.png", "image/png", "AA"⟩]
      ∧ (applyEvs (restoreEffect none)
          [.upload ⟨"photo.png", "image/png", "AA"⟩, .setTab "filters",
           .submitFilter "p", .complete (.ok "data:image/png;base64,BB"),
           .submitFilter "p", .complete (.ok "data:image/png;base64,CC"),
           .submitFilter "p", .complete (.ok "data:image/png;base64,DD"),
           .submitFilter "p", .complete (.ok "data:image/png;base64,EE"),
           .submitFilter "p", .complete (.ok "data:image/png;base64,FF"),
           .submitFilter "p", .complete (.ok "data:image/png;base64,GG")]).history.length
        = 7
      ∧ saveData (fun f => .ok ("data:image/jpeg;base64," ++ f.content)) (.ok ())
          (applyEvs (restoreEffect none)
            [.upload ⟨"photo.png", "image/png", "AA"⟩, .setTab "filters",
             .submitFilter "p", .complete (.ok "data:image/png;base64,BB"),
             .submitFilter "p", .complete (.ok "data:image/png;base64,CC"),
             .submitFilter "p", .complete (.ok "data:image/png;base64,DD"),
             .submitFilter "p", .complete (.ok "data:image/png;base64,EE"),
             .submitFilter "p", .complete (.ok "data:image/png;base64,FF"),
             .submitFilter "p", .complete (.ok "data:image/png;base64,GG")]).history
          6 "" "filters" none
        = some ⟨["data:image/jpeg;base64,CC", "data:image/jpeg;base64,DD",
                 "data:image/jpeg;base64,EE", "data:image/jpeg;base64,FF",
                 "data:image/jpeg;base64,GG"], 4, "", "filters"⟩
      ∧ (restoreEffect (some (.ok (jvalOfSavedState
          ⟨["data:image/jpeg;base64,CC", "data:image/jpeg;base64,DD",
            "data:image/jpeg;base64,EE", "data:image/jpeg;base64,FF",
            "data:image/jpeg;base64,GG"], 4, "", "filters"⟩)))).history ≠ []
      ∧ (restoreEffect (some (.ok (jvalOfSavedState
          ⟨["data:image/jpeg;base64,CC", "data:image/jpeg;base64,DD",
            "data:image/jpeg;base64,EE", "data:image/jpeg;base64,FF",
            "data:image/jpeg;base64,GG"], 4, "", "filters"⟩)))).history.head?
        = some ⟨"saved-image-0.png", "image/jpeg", "CC"⟩
      ∧ ∀ f ∈ (restoreEffect (some (.ok (jvalOfSavedState
          ⟨["data:image/jpeg;base64,CC", "data:image/jpeg;base64,DD",
            "data:image/jpeg;base64,EE", "data:image/jpeg;base64,FF",
            "data:image/jpeg;base64,GG"], 4, "", "filters"⟩)))).history,
          f ≠ ⟨"photo.png", "image/png", "AA"⟩ := by
  decide

end App

end Oomify
